import Mathlib

/-!
Shallow embedding of the voice-cloning engine (voice_cloning_engine.py).

Waveforms are lists of real samples; numpy float arithmetic is modelled over
the reals.  A value that can be IEEE NaN is modelled as `Option` over the
reals (`none` = NaN), matching the code's `np.isnan` checks and the NaN
propagation of numpy arithmetic.  Library primitives that live outside the
repository (librosa pyin / stft / istft / pitch_shift / spectral_centroid,
scipy butter+filtfilt) are taken as parameters of type `Option`-returning
functions: `none` models the call raising an exception, which each stage's
try/except converts into returning its input waveform unchanged.
-/

/-- NaN-able numeric value: `none` models IEEE NaN. -/
def NVal : Type := Option ℝ

/-- Models np.clip(x, lo, hi) = minimum(maximum(x, lo), hi). -/
noncomputable def clip (x lo hi : ℝ) : ℝ := min (max x lo) hi

/-- Pitch shift factor from apply_pitch_transformation: np.clip(target/current, 0.5, 2.0). -/
noncomputable def pitchRatioOf (t c : ℝ) : ℝ := clip (t / c) 0.5 2

/-- Centroid factor from modify_spectral_envelope: np.clip(target/current, 0.8, 1.2). -/
noncomputable def centroidRatioOf (t c : ℝ) : ℝ := clip (t / c) 0.8 1.2

/-- Energy factor from match_voice_dynamics: np.clip(sqrt(target/current), 0.3, 3.0). -/
noncomputable def energyRatioOf (t c : ℝ) : ℝ := clip (Real.sqrt (t / c)) 0.3 3

/-- Models np.sign on reals. -/
noncomputable def sgn (x : ℝ) : ℝ := if 0 < x then 1 else if x < 0 then -1 else 0

/-- Models np.mean(x ** 2); empty input gives 0/0 = 0 here, while numpy
gives NaN — in every use site both fail the `> 0` guard identically. -/
noncomputable def meanSq (wav : List ℝ) : ℝ := (wav.map (fun x => x ^ 2)).sum / wav.length

/-- Models np.sqrt(np.mean(audio ** 2)), the RMS in match_voice_dynamics. -/
noncomputable def rmsOf (wav : List ℝ) : ℝ := Real.sqrt (meanSq wav)

/-- Models np.max(np.abs(l)) for a list with nonnegative-able entries;
the fold with base 0 agrees with numpy's max on nonempty lists because
absolute values are nonnegative. -/
noncomputable def peakAmp (l : List ℝ) : ℝ := (l.map (fun x => |x|)).foldr max 0

/-- Models librosa.fft_frequencies(sr=sr, n_fft=2048): k * sr / 2048 for k = 0..1024. -/
noncomputable def fftFreqs (sr : ℝ) : List ℝ :=
  (List.range 1025).map (fun k => (k : ℝ) * sr / 2048)

/-- Models magnitude *= weights.reshape(-1, 1): row i (one frequency bin,
all frames) of the magnitude matrix is scaled by weights[i]. -/
def scaleRows (mag : List (List ℝ)) (w : List ℝ) : List (List ℝ) :=
  List.zipWith (fun row c => row.map (fun x => c * x)) mag w

/-- Feature dictionary built by extract_voice_features.  Fields that can be
IEEE NaN (pyin statistics over voiced frames) are `NVal`; the remaining
numpy means are plain reals. -/
structure Features where
  f0_mean : NVal
  f0_std : NVal
  spectral_centroid_mean : ℝ
  spectral_rolloff_mean : ℝ
  zero_crossing_rate_mean : ℝ
  mfccs_mean : List ℝ
  formants : List ℝ
  duration : ℝ
  energy : ℝ

/-- External DSP primitives used inside the transformation stages
(librosa and scipy calls).  `none` models the call raising. -/
structure DSP where
  pyinVoicedMean : List ℝ → Option NVal
  pitchShift : List ℝ → ℝ → ℝ → Option (List ℝ)
  stft : List ℝ → Option (List (List ℝ) × List (List ℝ))
  istft : List (List ℝ) × List (List ℝ) → Option (List ℝ)
  spectralCentroidMean : List ℝ → ℝ → Option ℝ
  lowpass : ℝ → List ℝ → Option (List ℝ)

/-- Body of apply_pitch_transformation inside its try block; `none` is an
uncaught internal exception. -/
noncomputable def applyPitchTransformationBody (dsp : DSP) (wav : List ℝ) (sr : ℝ)
    (tf : Features) : Option (List ℝ) :=
  match tf.f0_mean with
  | none => some wav
  | some t =>
    match dsp.pyinVoicedMean wav with
    | none => none
    | some none => some wav
    | some (some c) =>
      if c ≤ 0 then some wav
      else dsp.pitchShift wav sr (12 * Real.logb 2 (pitchRatioOf t c))

/-- apply_pitch_transformation: the except clause returns the input. -/
noncomputable def applyPitchTransformation (dsp : DSP) (wav : List ℝ) (sr : ℝ)
    (tf : Features) : List ℝ :=
  (applyPitchTransformationBody dsp wav sr tf).getD wav

/-- Gaussian frequency weights of modify_spectral_envelope:
1 + (centroid_ratio - 1) * exp(-0.5*((f - t)/(t*0.3))^2) * 0.3. -/
noncomputable def envWeights (sr t c : ℝ) : List ℝ :=
  (fftFreqs sr).map
    (fun f => 1 + (centroidRatioOf t c - 1) * Real.exp (-0.5 * ((f - t) / (t * 0.3)) ^ 2) * 0.3)

/-- Body of modify_spectral_envelope inside its try block. -/
noncomputable def modifySpectralEnvelopeBody (dsp : DSP) (wav : List ℝ) (sr : ℝ)
    (tf : Features) : Option (List ℝ) :=
  match dsp.stft wav with
  | none => none
  | some (mag, phase) =>
    match dsp.spectralCentroidMean wav sr with
    | none => none
    | some c =>
      let t := tf.spectral_centroid_mean
      let mag2 := if 0 < c ∧ 0 < t then scaleRows mag (envWeights sr t c) else mag
      dsp.istft (mag2, phase)

/-- modify_spectral_envelope: the except clause returns the input. -/
noncomputable def modifySpectralEnvelope (dsp : DSP) (wav : List ℝ) (sr : ℝ)
    (tf : Features) : List ℝ :=
  (modifySpectralEnvelopeBody dsp wav sr tf).getD wav

/-- Formant emphasis weights: 1 + exp(-0.5*((f - ff)/(ff*0.1))^2) * 0.2. -/
noncomputable def formantWeights (sr ff : ℝ) : List ℝ :=
  (fftFreqs sr).map (fun f => 1 + Real.exp (-0.5 * ((f - ff) / (ff * 0.1)) ^ 2) * 0.2)

/-- Body of apply_formant_shifting inside its try block; loops over the
first three target formants, emphasising only positive ones. -/
noncomputable def applyFormantShiftingBody (dsp : DSP) (wav : List ℝ) (sr : ℝ)
    (tf : Features) : Option (List ℝ) :=
  match dsp.stft wav with
  | none => none
  | some (mag, phase) =>
    let mag2 := (tf.formants.take 3).foldl
      (fun m ff => if 0 < ff then scaleRows m (formantWeights sr ff) else m) mag
    dsp.istft (mag2, phase)

/-- apply_formant_shifting: the except clause returns the input. -/
noncomputable def applyFormantShifting (dsp : DSP) (wav : List ℝ) (sr : ℝ)
    (tf : Features) : List ℝ :=
  (applyFormantShiftingBody dsp wav sr tf).getD wav

/-- Spectral tilt of adjust_voice_texture: exp(log(t/c)*0.1 * log(f+1)). -/
noncomputable def textureWeights (sr t c : ℝ) : List ℝ :=
  (fftFreqs sr).map (fun f => Real.exp (Real.log (t / c) * 0.1 * Real.log (f + 1)))

/-- Body of adjust_voice_texture inside its try block.  The Features record
always carries spectral_centroid_mean, so the dict .get default 2000 of the
source is dead code here. -/
noncomputable def adjustVoiceTextureBody (dsp : DSP) (wav : List ℝ) (sr : ℝ)
    (tf : Features) : Option (List ℝ) :=
  match dsp.stft wav with
  | none => none
  | some (mag, phase) =>
    let t := tf.spectral_centroid_mean
    match dsp.spectralCentroidMean wav sr with
    | none => none
    | some c =>
      let mag2 := if 0 < c ∧ 0 < t then scaleRows mag (textureWeights sr t c) else mag
      dsp.istft (mag2, phase)

/-- adjust_voice_texture: the except clause returns the input. -/
noncomputable def adjustVoiceTexture (dsp : DSP) (wav : List ℝ) (sr : ℝ)
    (tf : Features) : List ℝ :=
  (adjustVoiceTextureBody dsp wav sr tf).getD wav

/-- match_voice_dynamics: pure numpy arithmetic, no fallible primitive, so
its try block is total.  Note the unconditional RMS renormalisation to 0.1
after the (guarded) energy-ratio scaling. -/
noncomputable def matchVoiceDynamics (wav : List ℝ) (tf : Features) : List ℝ :=
  let currentEnergy := meanSq wav
  let targetEnergy := tf.energy
  let wav1 := if 0 < currentEnergy ∧ 0 < targetEnergy then
      wav.map (fun x => x * energyRatioOf targetEnergy currentEnergy) else wav
  if 0 < rmsOf wav1 then wav1.map (fun x => x / rmsOf wav1 * 0.1) else wav1

/-- Soft compressor sample map of enhance_voice_quality:
np.where(|x| > 0.1, sign(x)*(0.1 + (|x| - 0.1)/3), x). -/
noncomputable def compressSample (x : ℝ) : ℝ :=
  if 0.1 < |x| then sgn x * (0.1 + (|x| - 0.1) / 3) else x

/-- Body of enhance_voice_quality inside its try block: low-pass filter,
compressor, then peak normalisation to 0.8.  np.max on an empty array
raises, modelled by the empty-list guard. -/
noncomputable def enhanceVoiceQualityBody (dsp : DSP) (wav : List ℝ) (sr : ℝ) :
    Option (List ℝ) :=
  match dsp.lowpass (min 8000 (sr / 2 * 0.9) / (sr / 2)) wav with
  | none => none
  | some filtered =>
    match filtered.map compressSample with
    | [] => none
    | c :: cs =>
      some (if 0 < peakAmp (c :: cs)
        then (c :: cs).map (fun x => x / peakAmp (c :: cs) * 0.8) else c :: cs)

/-- enhance_voice_quality: the except clause returns the input. -/
noncomputable def enhanceVoiceQuality (dsp : DSP) (wav : List ℝ) (sr : ℝ) : List ℝ :=
  (enhanceVoiceQualityBody dsp wav sr).getD wav

/-!
Formant estimator (estimate_formants).  The FFT power spectrum is the exact
discrete Fourier transform over the reals; scipy.signal.find_peaks is
modelled with its plateau-aware strict local-maximum scan and its `height`
filter (keep peaks whose value is at least the bound).
-/

/-- Discrete Fourier coefficient k of a real sample list (np.fft.fft). -/
noncomputable def dft (a : List ℝ) (k : ℕ) : ℂ :=
  ∑ j ∈ Finset.range a.length,
    (a.getD j 0 : ℂ) * Complex.exp (-2 * Real.pi * Complex.I * k * j / a.length)

/-- Models power = np.abs(np.fft.fft(audio)) ** 2, as the squared modulus. -/
noncomputable def dftPower (a : List ℝ) : List ℝ :=
  (List.range a.length).map (fun k => Complex.normSq (dft a k))

/-- Plateau scan of scipy find_peaks: first index from `ahead` on that is the
last interior index or carries a value different from `v`. -/
noncomputable def plateauEnd (x : List ℝ) (v : ℝ) : ℕ → ℕ → ℕ
  | ahead, 0 => ahead
  | ahead, fuel + 1 =>
    if ahead < x.length - 1 ∧ x.getD ahead 0 = v then plateauEnd x v (ahead + 1) fuel
    else ahead

/-- Interior local-maximum scan of scipy find_peaks (midpoints of plateaus
that drop on both sides); fuel bounds the strictly increasing index. -/
noncomputable def findPeaksAux (x : List ℝ) : ℕ → ℕ → List ℕ
  | _, 0 => []
  | i, fuel + 1 =>
    if i < x.length - 1 then
      if x.getD (i - 1) 0 < x.getD i 0 then
        let ahead := plateauEnd x (x.getD i 0) (i + 1) x.length
        if x.getD ahead 0 < x.getD i 0 then
          (i + ahead - 1) / 2 :: findPeaksAux x (ahead + 1) fuel
        else findPeaksAux x (i + 1) fuel
      else findPeaksAux x (i + 1) fuel
    else []

/-- scipy.signal.find_peaks(x, height=h): local maxima with value ≥ h. -/
noncomputable def findPeaks (x : List ℝ) (h : ℝ) : List ℕ :=
  (findPeaksAux x 1 x.length).filter (fun i => decide (h ≤ x.getD i 0))

/-- Maximum of a list, seeded with its head (np.max on a nonempty array). -/
noncomputable def listMax (l : List ℝ) : ℝ := l.foldr max (l.headD 0)

/-- Insertion step for ascending sort of reals. -/
noncomputable def insertAsc (x : ℝ) : List ℝ → List ℝ
  | [] => [x]
  | y :: ys => if x ≤ y then x :: y :: ys else y :: insertAsc x ys

/-- Python sorted(...) on reals, ascending. -/
noncomputable def sortAsc (l : List ℝ) : List ℝ := l.foldr insertAsc []

/-- Insertion step for np.argsort: order indices by their value in `vals`. -/
noncomputable def insertIdxByVal (vals : List ℝ) (i : ℕ) : List ℕ → List ℕ
  | [] => [i]
  | j :: js =>
    if vals.getD i 0 < vals.getD j 0 then i :: j :: js else j :: insertIdxByVal vals i js

/-- np.argsort(vals): indices of vals sorted by value ascending. -/
noncomputable def argsortAsc (vals : List ℝ) : List ℕ :=
  (List.range vals.length).foldr (insertIdxByVal vals) []

/-- estimate_formants.  The fallback [500, 1500, 2500, 3500] is produced
only by the except branch, reached when np.max is applied to an empty
positive-frequency spectrum (inputs of length 0 or 1, where np.fft.fft or
np.max raises); otherwise the found peaks — possibly fewer than
`nFormants`, possibly none — are returned sorted ascending. -/
noncomputable def estimateFormants (a : List ℝ) (sr : ℝ) (nFormants : ℕ) : List ℝ :=
  let n := a.length
  let positivePower := (dftPower a).take (n / 2)
  if positivePower = [] then [500, 1500, 2500, 3500]
  else
    let h := listMax positivePower * 0.1
    let peaks := findPeaks positivePower h
    let peakPowers := peaks.map (fun i => positivePower.getD i 0)
    let sortedIdx := (argsortAsc peakPowers).reverse
    let formants := (sortedIdx.take nFormants).map (fun j => (peaks.getD j 0 : ℝ) * sr / n)
    sortAsc formants

/-!
Orchestrator (clone_voice, load_reference_voice, synthesize_base_speech,
get_voice_similarity_score).  File-system and extractor activity is logged
as an explicit event list; external collaborators (librosa load + feature
extraction, pyttsx3, soundfile, os.unlink) are parameters whose booleans
say whether the corresponding call succeeds.
-/

/-- Observable effects of one engine call. -/
inductive Ev where
  | extracted (p : String)
  | created (p : String)
  | deleted (p : String)
deriving DecidableEq, Repr

/-- True on feature-extraction events. -/
def Ev.isExtract : Ev → Bool
  | .extracted _ => true
  | _ => false

/-- Mutable fields of VoiceCloningEngine (reference_audio is named
reference_wav here).  last_reference_path is the getattr-guarded attribute
set only by clone_voice. -/
structure EngineState where
  reference_features : Option Features
  reference_wav : Option (List ℝ)
  reference_sr : Option ℝ
  last_reference_path : Option String

/-- External collaborators of the orchestrator.  `extract` models
extract_voice_features (which catches its own exceptions and returns None);
ttsOk models a usable pyttsx3 engine; synthOk models save_to_file and
runAndWait leaving a nonempty file; transformOk models
apply_voice_transformation returning rather than raising twice; writeOk
models sf.write; unlinkOk models os.unlink. -/
structure Collab where
  extract : String → Option (Features × List ℝ)
  ttsOk : Bool
  baseName : String
  synthOk : Bool
  transformOk : Bool
  outName : String
  writeOk : Bool
  unlinkOk : Bool

/-- load_reference_voice: extracts, and only on success overwrites the
three cached reference fields.  It never touches last_reference_path. -/
def loadReferenceVoice (st : EngineState) (ext : Collab) (path : String) :
    EngineState × List Ev × Bool :=
  match ext.extract path with
  | none => (st, [Ev.extracted path], false)
  | some fa =>
    (EngineState.mk (some fa.1) (some fa.2) (some 22050) st.last_reference_path,
      [Ev.extracted path], true)

/-- synthesize_base_speech: with a TTS engine it always creates the named
temporary file (delete=False) and returns its path only when the engine
left it nonempty; the file is never removed here, even on failure. -/
def synthesizeBaseSpeech (ext : Collab) : List Ev × Option String :=
  if ext.ttsOk then
    ([Ev.created ext.baseName], if ext.synthOk then some ext.baseName else none)
  else ([], none)

/-- Tail of clone_voice after the reference is available: synthesis,
transformation, output temp file, sf.write, then the only unlink of the
base artifact, which is reached on the success path alone. -/
def cloneAfterLoad (st : EngineState) (ext : Collab) (ev : List Ev) :
    EngineState × List Ev × Option String :=
  let s := synthesizeBaseSpeech ext
  match s.2 with
  | none => (st, ev ++ s.1, none)
  | some bp =>
    if ext.transformOk then
      if ext.writeOk then
        let ev4 := if ext.unlinkOk then [Ev.deleted bp] else []
        (st, ev ++ s.1 ++ [Ev.created ext.outName] ++ ev4, some ext.outName)
      else (st, ev ++ s.1 ++ [Ev.created ext.outName], none)
    else (st, ev ++ s.1, none)

/-- Python str.strip() over the character list (leading and trailing
whitespace removed); the guard `not text.strip()` of clone_voice is then
emptiness of this string. -/
def pyStrip (s : String) : String :=
  ⟨(((s.data.dropWhile Char.isWhitespace).reverse).dropWhile Char.isWhitespace).reverse⟩

/-- clone_voice: empty-after-strip text is rejected before any work; a
reference is (re)loaded unless features are cached for the same path; all
later failures are caught by the outer except and reported as None. -/
def cloneVoice (st : EngineState) (ext : Collab) (text refPath : String) :
    EngineState × List Ev × Option String :=
  if pyStrip text = "" then (st, [], none)
  else
    if st.reference_features.isNone || (st.last_reference_path != some refPath) then
      let lr := loadReferenceVoice st ext refPath
      if lr.2.2 then
        cloneAfterLoad
          (EngineState.mk lr.1.reference_features lr.1.reference_wav lr.1.reference_sr
            (some refPath)) ext lr.2.1
      else (st, lr.2.1, none)
    else cloneAfterLoad st ext []

/-!
Similarity scoring (get_voice_similarity_score).  The feature statistics
involved are np.float64 values that can be NaN (pyin means of unvoiced
audio) and can be 0 (centroid of silence); arithmetic on `NVal` follows
IEEE semantics: NaN propagates, every comparison with NaN is false, and
0/0 is NaN.  A nonzero numerator over a zero denominator (IEEE infinity)
is also mapped to `none`; it is unreachable from extractor outputs, whose
denominators are NaN, positive, or zero with a zero numerator.
-/

/-- IEEE addition on NaN-able values. -/
def nadd : NVal → NVal → NVal
  | some a, some b => some (a + b)
  | _, _ => none

/-- IEEE subtraction on NaN-able values. -/
def nsub : NVal → NVal → NVal
  | some a, some b => some (a - b)
  | _, _ => none

/-- IEEE absolute value on NaN-able values. -/
def nabs : NVal → NVal
  | some a => some |a|
  | none => none

/-- IEEE division on NaN-able values (see the note above on 0/0 and x/0). -/
noncomputable def ndiv : NVal → NVal → NVal
  | some a, some b => if b = 0 then none else some (a / b)
  | _, _ => none

/-- Python max(a, b) = b if b > a else a; any comparison with NaN is false,
so a NaN first argument wins and a NaN second argument loses. -/
noncomputable def pyMax : NVal → NVal → NVal
  | none, _ => none
  | some a, none => some a
  | some a, some b => some (max a b)

/-- Python min(1.0, v): NaN is never < 1.0, so NaN yields 1.0. -/
noncomputable def pyMinOne : NVal → ℝ
  | none => 1
  | some y => if y < 1 then y else 1

/-- Shared closeness formula of get_voice_similarity_score:
1 - |a - b| / max(a, b). -/
noncomputable def closeness (a b : NVal) : NVal :=
  nsub (some 1) (ndiv (nabs (nsub a b)) (pyMax a b))

/-- Body of get_voice_similarity_score on two extracted feature records:
average of pitch and centroid closeness, passed through
max(0.0, min(1.0, ·)). -/
noncomputable def simScore (ref cloned : Features) : ℝ :=
  let p := closeness ref.f0_mean cloned.f0_mean
  let s := closeness (some ref.spectral_centroid_mean) (some cloned.spectral_centroid_mean)
  max 0 (pyMinOne (ndiv (nadd p s) (some 2)))

/-- get_voice_similarity_score(cloned_path, reference_path): 0.0 when
either extraction fails, the clamped averaged closeness otherwise. -/
noncomputable def getVoiceSimilarityScore (ext : Collab) (clonedPath refPath : String) : ℝ :=
  match ext.extract refPath, ext.extract clonedPath with
  | some rf, some cf => simScore rf.1 cf.1
  | _, _ => 0

/-!
Concrete fixtures used by witnesses and counterexamples: a feature record
as extracted from silent reference audio (NaN pitch, zero centroid and
energy, no detected formants), DSP bundles with failing or trivially
invertible primitives, and concrete engine states and collaborators.
-/

/-- Features of a silent reference: pyin yields NaN means, the centroid,
rolloff, zero-crossing rate and energy are 0, no formant peaks are found. -/
def fZero : Features := ⟨none, none, 0, 0, 0, [], [], 0, 0⟩

/-- DSP bundle in which every library primitive raises. -/
def dspNone : DSP :=
  ⟨fun _ => none, fun _ _ _ => none, fun _ => none, fun _ => none,
    fun _ _ => none, fun _ _ => none⟩

/-- DSP bundle with a trivial perfect-reconstruction transform pair:
stft packs the waveform as a one-row magnitude matrix, istft unpacks it. -/
def dspW : DSP :=
  ⟨fun _ => none, fun _ _ _ => none, fun a => some ([a], [[]]),
    fun mp => some (mp.1.headD []), fun _ _ => none, fun _ _ => none⟩

/-- DSP bundle whose low-pass filter returns a single zero sample. -/
def dspZero : DSP :=
  ⟨fun _ => none, fun _ _ _ => none, fun _ => none, fun _ => none,
    fun _ _ => none, fun _ _ => some [0]⟩

/-- Freshly constructed engine: nothing cached. -/
def stEmpty : EngineState := ⟨none, none, none, none⟩

/-- Engine that has already analysed the reference at path "ref.wav". -/
def stLoaded : EngineState := ⟨some fZero, some [], some 22050, some "ref.wav"⟩

/-- Collaborators that all fail. -/
def extFail : Collab :=
  ⟨fun _ => none, false, "base.wav", false, false, "out.wav", false, false⟩

/-- Collaborators that all succeed; extraction yields the silent features. -/
def extOk : Collab :=
  ⟨fun _ => some (fZero, []), true, "base.wav", true, true, "out.wav", true, true⟩

/-- Collaborators where everything succeeds except sf.write. -/
def extWriteFail : Collab :=
  ⟨fun _ => none, true, "base.wav", true, true, "out.wav", false, true⟩

/-- Collaborators whose extractor succeeds only on path "a". -/
def extSim : Collab :=
  ⟨fun p => if p = "a" then some (fZero, []) else none,
    false, "base.wav", false, false, "out.wav", false, false⟩

/-!
Theorems.  Helper lemmas come first; each claim then has exactly one
theorem (plus a witness or counterexample where required).
-/

theorem clip_mem (x lo hi : ℝ) (h : lo ≤ hi) : lo ≤ clip x lo hi ∧ clip x lo hi ≤ hi :=
  ⟨le_min (le_max_right x lo) h, min_le_right _ _⟩

/-- C4: for positive target/base feature pairs, the multiplicative factor
each stage applies is clamped — the pitch ratio target/base to [0.5, 2.0]
before semitone conversion, the spectral-centroid ratio to [0.8, 1.2], and
the energy amplitude ratio sqrt(target/current) to [0.3, 3.0]. -/
theorem c4_clamped_factors (tf0 cf0 tc cc te ce : ℝ)
    (h1 : 0 < tf0) (h2 : 0 < cf0) (h3 : 0 < tc) (h4 : 0 < cc)
    (h5 : 0 < te) (h6 : 0 < ce) :
    (0.5 ≤ pitchRatioOf tf0 cf0 ∧ pitchRatioOf tf0 cf0 ≤ 2)
    ∧ (0.8 ≤ centroidRatioOf tc cc ∧ centroidRatioOf tc cc ≤ 1.2)
    ∧ (0.3 ≤ energyRatioOf te ce ∧ energyRatioOf te ce ≤ 3) := by
  unfold pitchRatioOf centroidRatioOf energyRatioOf
  exact ⟨clip_mem _ _ _ (by norm_num), clip_mem _ _ _ (by norm_num),
    clip_mem _ _ _ (by norm_num)⟩

theorem c4_clamped_factors_witness :
    (0.5 ≤ pitchRatioOf 300 150 ∧ pitchRatioOf 300 150 ≤ 2)
    ∧ (0.8 ≤ centroidRatioOf 2000 1000 ∧ centroidRatioOf 2000 1000 ≤ 1.2)
    ∧ (0.3 ≤ energyRatioOf 4 1 ∧ energyRatioOf 4 1 ≤ 3) :=
  c4_clamped_factors 300 150 2000 1000 4 1 (by norm_num) (by norm_num)
    (by norm_num) (by norm_num) (by norm_num) (by norm_num)

theorem pitch_nan_identity (dsp : DSP) (wav : List ℝ) (sr : ℝ) (tf : Features)
    (h : tf.f0_mean = none) : applyPitchTransformation dsp wav sr tf = wav := by
  unfold applyPitchTransformation applyPitchTransformationBody
  rw [h]
  rfl

theorem envelope_skip_identity (dsp : DSP) (wav : List ℝ) (sr : ℝ) (tf : Features)
    (ht : tf.spectral_centroid_mean ≤ 0)
    (hrt : ∀ m p y, dsp.stft wav = some (m, p) → dsp.istft (m, p) = some y → y = wav) :
    modifySpectralEnvelope dsp wav sr tf = wav := by
  unfold modifySpectralEnvelope modifySpectralEnvelopeBody
  cases hs : dsp.stft wav with
  | none => rfl
  | some mp =>
    obtain ⟨m, p⟩ := mp
    cases hc : dsp.spectralCentroidMean wav sr with
    | none => rfl
    | some c =>
      have hcond : ¬ (0 < c ∧ 0 < tf.spectral_centroid_mean) := by
        rintro ⟨_, h2⟩; linarith
      simp only [hcond, if_false, if_neg]
      cases hi : dsp.istft (m, p) with
      | none => rfl
      | some y => simpa using hrt m p y hs hi

theorem formant_fold_skip (sr : ℝ) (l : List ℝ) (hl : ∀ f ∈ l, f ≤ 0) :
    ∀ m : List (List ℝ),
      l.foldl (fun m2 ff => if 0 < ff then scaleRows m2 (formantWeights sr ff) else m2) m = m := by
  induction l with
  | nil => intro m; rfl
  | cons a as ih =>
    intro m
    have ha : ¬ (0 < a) := not_lt.mpr (hl a (List.mem_cons_self a as))
    rw [List.foldl_cons, if_neg ha]
    exact ih (fun f hf => hl f (List.mem_cons_of_mem a hf)) m

theorem formant_skip_identity (dsp : DSP) (wav : List ℝ) (sr : ℝ) (tf : Features)
    (ht : ∀ f ∈ tf.formants.take 3, f ≤ 0)
    (hrt : ∀ m p y, dsp.stft wav = some (m, p) → dsp.istft (m, p) = some y → y = wav) :
    applyFormantShifting dsp wav sr tf = wav := by
  unfold applyFormantShifting applyFormantShiftingBody
  cases hs : dsp.stft wav with
  | none => rfl
  | some mp =>
    obtain ⟨m, p⟩ := mp
    have hfold := formant_fold_skip sr (tf.formants.take 3) ht m
    simp only [hfold]
    cases hi : dsp.istft (m, p) with
    | none => rfl
    | some y => simpa using hrt m p y hs hi

theorem texture_skip_identity (dsp : DSP) (wav : List ℝ) (sr : ℝ) (tf : Features)
    (ht : tf.spectral_centroid_mean ≤ 0)
    (hrt : ∀ m p y, dsp.stft wav = some (m, p) → dsp.istft (m, p) = some y → y = wav) :
    adjustVoiceTexture dsp wav sr tf = wav := by
  unfold adjustVoiceTexture adjustVoiceTextureBody
  cases hs : dsp.stft wav with
  | none => rfl
  | some mp =>
    obtain ⟨m, p⟩ := mp
    cases hc : dsp.spectralCentroidMean wav sr with
    | none => rfl
    | some c =>
      have hcond : ¬ (0 < c ∧ 0 < tf.spectral_centroid_mean) := by
        rintro ⟨_, h2⟩; linarith
      simp only [hcond, if_false, if_neg]
      cases hi : dsp.istft (m, p) with
      | none => rfl
      | some y => simpa using hrt m p y hs hi

theorem dynamics_rms_renorm (wav : List ℝ) (tf : Features)
    (he : tf.energy ≤ 0) (hr : 0 < rmsOf wav) :
    matchVoiceDynamics wav tf = wav.map (fun x => x / rmsOf wav * 0.1) := by
  unfold matchVoiceDynamics
  have h1 : ¬ (0 < meanSq wav ∧ 0 < tf.energy) := by rintro ⟨_, h⟩; linarith
  simp only [h1, if_false, if_neg, hr, if_pos, if_true]

theorem meanSq_one : meanSq [1] = 1 := by
  norm_num [meanSq]

theorem rmsOf_one : rmsOf [1] = 1 := by
  rw [rmsOf, meanSq_one, Real.sqrt_one]

/-- C1 (amended): with an undefined or non-positive relevant target
feature, the pitch, spectral-envelope, formant and texture stages return
their input (exactly, given that the magnitude/phase reconstruction
inverts the analysis transform, which floating STFT round-tripping does up
to tolerance) — but dynamics matching does not: with non-positive target
energy it skips only the energy-ratio scaling and still rescales any
non-silent input to RMS 0.1.  (The pitch stage tests only NaN, not
sign; pyin never produces a non-positive mean.) -/
theorem c1_amended (dsp : DSP) (sr : ℝ) (wav : List ℝ) (t1 t2 t3 t4 t5 : Features)
    (h1 : t1.f0_mean = none)
    (h2 : t2.spectral_centroid_mean ≤ 0)
    (h3 : ∀ f ∈ t3.formants.take 3, f ≤ 0)
    (h4 : t4.spectral_centroid_mean ≤ 0)
    (h5 : t5.energy ≤ 0) (h5r : 0 < rmsOf wav)
    (hrt : ∀ m p y, dsp.stft wav = some (m, p) → dsp.istft (m, p) = some y → y = wav) :
    applyPitchTransformation dsp wav sr t1 = wav
    ∧ modifySpectralEnvelope dsp wav sr t2 = wav
    ∧ applyFormantShifting dsp wav sr t3 = wav
    ∧ adjustVoiceTexture dsp wav sr t4 = wav
    ∧ matchVoiceDynamics wav t5 = wav.map (fun x => x / rmsOf wav * 0.1) :=
  ⟨pitch_nan_identity dsp wav sr t1 h1,
    envelope_skip_identity dsp wav sr t2 h2 hrt,
    formant_skip_identity dsp wav sr t3 h3 hrt,
    texture_skip_identity dsp wav sr t4 h4 hrt,
    dynamics_rms_renorm wav t5 h5 h5r⟩

theorem c1_amended_witness :
    0 < rmsOf [1]
    ∧ applyPitchTransformation dspW [1] 22050 fZero = [1]
    ∧ modifySpectralEnvelope dspW [1] 22050 fZero = [1]
    ∧ matchVoiceDynamics [1] fZero = [1].map (fun x => x / rmsOf [1] * 0.1) := by
  have h5r : (0:ℝ) < rmsOf [1] := by rw [rmsOf_one]; norm_num
  have hrt : ∀ m p y, dspW.stft [1] = some (m, p) → dspW.istft (m, p) = some y → y = [1] := by
    intro m p y hs hi
    simp only [dspW] at hs hi
    obtain ⟨hm, hp⟩ := Prod.mk.injEq .. ▸ Option.some.injEq .. ▸ hs
    · subst hm
      simpa using hi.symm
  have h := c1_amended dspW 22050 [1] fZero fZero fZero fZero fZero rfl
    (by norm_num [fZero]) (by simp [fZero]) (by norm_num [fZero]) (by norm_num [fZero])
    h5r hrt
  exact ⟨h5r, h.1, h.2.1, h.2.2.2.2⟩

/-- C1 (counterexample): the dynamics-matching stage applied to the
waveform [1] with a non-positive (zero, as for a silent reference) target
energy returns [0.1], not its input. -/
theorem c1_counterexample :
    matchVoiceDynamics [1] fZero = [0.1] ∧ matchVoiceDynamics [1] fZero ≠ [1] := by
  have h : matchVoiceDynamics [1] fZero = [0.1] := by
    have hd := dynamics_rms_renorm [1] fZero (by norm_num [fZero])
      (by rw [rmsOf_one]; norm_num)
    rw [hd, rmsOf_one]
    norm_num
  refine ⟨h, ?_⟩
  rw [h]
  intro hcontra
  have : (0.1 : ℝ) = 1 := List.cons.injEq .. ▸ hcontra |>.1
  norm_num at this

/-- C3: if the internal library primitives of a stage raise (pyin,
pitch_shift, stft, istft, spectral centroid, the butter/filtfilt low-pass),
the stage's try/except returns its input waveform unchanged and no
exception escapes; this covers the four spectral/pitch stages and the
enhancer — dynamics matching contains no fallible primitive at all. -/
theorem c3_stage_exception_identity (dsp : DSP) (wav : List ℝ) (sr : ℝ) (tf : Features)
    (hpy : ∀ a, dsp.pyinVoicedMean a = none)
    (hst : ∀ a, dsp.stft a = none)
    (hlp : ∀ w a, dsp.lowpass w a = none) :
    applyPitchTransformation dsp wav sr tf = wav
    ∧ modifySpectralEnvelope dsp wav sr tf = wav
    ∧ applyFormantShifting dsp wav sr tf = wav
    ∧ adjustVoiceTexture dsp wav sr tf = wav
    ∧ enhanceVoiceQuality dsp wav sr = wav := by
  refine ⟨?_, ?_, ?_, ?_, ?_⟩
  · unfold applyPitchTransformation applyPitchTransformationBody
    cases hf : tf.f0_mean with
    | none => rfl
    | some t =>
      rw [hpy wav]
      rfl
  · unfold modifySpectralEnvelope modifySpectralEnvelopeBody
    rw [hst wav]
    rfl
  · unfold applyFormantShifting applyFormantShiftingBody
    rw [hst wav]
    rfl
  · unfold adjustVoiceTexture adjustVoiceTextureBody
    rw [hst wav]
    rfl
  · unfold enhanceVoiceQuality enhanceVoiceQualityBody
    simp only [hlp]
    rfl

theorem c3_stage_exception_identity_witness :
    applyPitchTransformation dspNone [1] 22050 fZero = [1]
    ∧ modifySpectralEnvelope dspNone [1] 22050 fZero = [1]
    ∧ applyFormantShifting dspNone [1] 22050 fZero = [1]
    ∧ adjustVoiceTexture dspNone [1] 22050 fZero = [1]
    ∧ enhanceVoiceQuality dspNone [1] 22050 = [1] :=
  c3_stage_exception_identity dspNone [1] 22050 fZero
    (fun _ => rfl) (fun _ => rfl) (fun _ _ => rfl)

theorem peakAmp_cons (a : ℝ) (l : List ℝ) : peakAmp (a :: l) = max |a| (peakAmp l) := rfl

theorem peakAmp_nonneg (l : List ℝ) : 0 ≤ peakAmp l := by
  induction l with
  | nil => exact le_refl 0
  | cons a as ih =>
    rw [peakAmp_cons]
    exact le_max_of_le_right ih

theorem mem_abs_le_peakAmp (l : List ℝ) (x : ℝ) (hx : x ∈ l) : |x| ≤ peakAmp l := by
  induction l with
  | nil => cases hx
  | cons a as ih =>
    rw [peakAmp_cons]
    rcases List.mem_cons.mp hx with h | h
    · rw [h]; exact le_max_left _ _
    · exact le_max_of_le_right (ih h)

theorem peakAmp_le (l : List ℝ) (b : ℝ) (hb : 0 ≤ b) (h : ∀ x ∈ l, |x| ≤ b) :
    peakAmp l ≤ b := by
  induction l with
  | nil => exact hb
  | cons a as ih =>
    rw [peakAmp_cons]
    exact max_le (h a (List.mem_cons_self a as))
      (ih (fun x hx => h x (List.mem_cons_of_mem a hx)))

/-- C5 (amended): when the enhancer's internal computation succeeds, the
output peak absolute amplitude is at most 0.8; when it fails (scipy
filtfilt raises on inputs shorter than its padding length), the input
waveform is returned unchanged and its peak is unconstrained. -/
theorem c5_amended (dsp dsp2 : DSP) (wav wav2 : List ℝ) (sr sr2 : ℝ) (out : List ℝ)
    (hok : enhanceVoiceQualityBody dsp wav sr = some out)
    (hfail : enhanceVoiceQualityBody dsp2 wav2 sr2 = none) :
    peakAmp out ≤ 0.8 ∧ enhanceVoiceQuality dsp2 wav2 sr2 = wav2 := by
  constructor
  · unfold enhanceVoiceQualityBody at hok
    split at hok
    · cases hok
    · split at hok
      · cases hok
      · rename_i c cs hc
        have hout := Option.some.inj hok
        by_cases hpos : 0 < peakAmp (c :: cs)
        · rw [if_pos hpos] at hout
          rw [← hout]
          refine peakAmp_le _ _ (by norm_num) ?_
          intro x hx
          obtain ⟨z, hz, rfl⟩ := List.mem_map.mp hx
          have hzle := mem_abs_le_peakAmp _ z hz
          rw [abs_mul, abs_div, abs_of_pos hpos]
          have hdiv : |z| / peakAmp (c :: cs) ≤ 1 := (div_le_one hpos).mpr hzle
          calc |z| / peakAmp (c :: cs) * |(0.8 : ℝ)|
              ≤ 1 * |(0.8 : ℝ)| := mul_le_mul_of_nonneg_right hdiv (abs_nonneg _)
            _ ≤ 0.8 := by
                rw [one_mul, abs_of_nonneg (by norm_num : (0 : ℝ) ≤ 0.8)]
        · rw [if_neg hpos] at hout
          rw [← hout]
          have h0 : peakAmp (c :: cs) ≤ 0 := not_lt.mp hpos
          refine peakAmp_le _ _ (by norm_num) ?_
          intro x hx
          exact le_trans (le_trans (mem_abs_le_peakAmp _ x hx) h0) (by norm_num)
  · unfold enhanceVoiceQuality
    rw [hfail]
    rfl

theorem c5_amended_witness :
    peakAmp [(0 : ℝ)] ≤ 0.8 ∧ enhanceVoiceQuality dspNone [2] 22050 = [2] := by
  have hcs : compressSample 0 = 0 := by norm_num [compressSample]
  have hmap : ([(0 : ℝ)]).map compressSample = [0] := by
    rw [List.map_cons, List.map_nil, hcs]
  have h1 : dspZero.lowpass (min 8000 ((22050 : ℝ) / 2 * 0.9) / ((22050 : ℝ) / 2)) [0]
      = some [0] := rfl
  have hpk : peakAmp [(0 : ℝ)] = 0 := by
    rw [peakAmp_cons]
    simp [peakAmp]
  have hok : enhanceVoiceQualityBody dspZero [0] 22050 = some [0] := by
    unfold enhanceVoiceQualityBody
    simp only [h1, hmap]
    rw [hpk, if_neg (lt_irrefl (0 : ℝ))]
  have hfail : enhanceVoiceQualityBody dspNone [2] 22050 = none := rfl
  exact c5_amended dspZero dspNone [0] [2] 22050 22050 [0] hok hfail

/-- C5 (counterexample): on the waveform [2] (too short for filtfilt, so
the low-pass step raises), the enhancer returns its input with peak
amplitude 2 > 0.8. -/
theorem c5_counterexample :
    enhanceVoiceQuality dspNone [2] 22050 = [2]
    ∧ 0.8 < peakAmp (enhanceVoiceQuality dspNone [2] 22050) := by
  have h : enhanceVoiceQuality dspNone [2] 22050 = [2] := rfl
  refine ⟨h, ?_⟩
  rw [h]
  have h2 : (2 : ℝ) ≤ peakAmp [2] := by
    have hm := mem_abs_le_peakAmp [2] 2 (by simp)
    simpa using hm
  linarith

theorem replicate_getD_zero (n j : ℕ) : (List.replicate n (0 : ℝ)).getD j 0 = 0 := by
  induction n generalizing j with
  | zero => cases j <;> rfl
  | succ m ih =>
    cases j with
    | zero => rfl
    | succ k =>
      rw [List.replicate_succ]
      exact ih k

theorem dft_replicate_zero (n k : ℕ) : dft (List.replicate n 0) k = 0 := by
  unfold dft
  apply Finset.sum_eq_zero
  intro j hj
  rw [replicate_getD_zero]
  simp

theorem dftPower_replicate_zero (n : ℕ) :
    dftPower (List.replicate n 0) = List.replicate n 0 := by
  unfold dftPower
  rw [List.length_replicate]
  rw [show (fun k => Complex.normSq (dft (List.replicate n 0) k)) = fun _ => (0 : ℝ) from
    funext (fun k => by rw [dft_replicate_zero]; simp)]
  rw [List.map_const', List.length_range]

theorem findPeaksAux_replicate_zero (m : ℕ) :
    ∀ fuel i, findPeaksAux (List.replicate m 0) i fuel = [] := by
  intro fuel
  induction fuel with
  | zero => intro i; rfl
  | succ f ih =>
    intro i
    rw [findPeaksAux]
    split
    · rw [replicate_getD_zero, replicate_getD_zero]
      rw [if_neg (lt_irrefl (0 : ℝ))]
      exact ih (i + 1)
    · rfl

theorem estimateFormants_silent (n : ℕ) (hn : 2 ≤ n) (sr : ℝ) :
    estimateFormants (List.replicate n 0) sr 4 = [] := by
  obtain ⟨m, hm⟩ : ∃ m, n / 2 = m + 1 := ⟨n / 2 - 1, by omega⟩
  simp only [estimateFormants]
  rw [List.length_replicate, dftPower_replicate_zero, List.take_replicate,
    min_eq_left (Nat.div_le_self n 2), hm]
  rw [if_neg (by simp : ¬ List.replicate (m + 1) (0 : ℝ) = [])]
  simp [findPeaks, findPeaksAux_replicate_zero, argsortAsc, sortAsc]

/-- C2 (counterexample): on a silent four-sample waveform, peak-finding
succeeds with zero peaks and estimate_formants returns the empty list, not
the fallback sequence [500, 1500, 2500, 3500]. -/
theorem c2_counterexample :
    estimateFormants (List.replicate 4 0) 22050 4 ≠ [500, 1500, 2500, 3500] := by
  rw [estimateFormants_silent 4 (by norm_num) 22050]
  simp

/-- C2 (amended): the fallback [500, 1500, 2500, 3500] Hz is returned only
when the computation raises (an input with an empty positive-frequency
spectrum, i.e. fewer than two samples, where np.max raises); when
peak-finding succeeds with fewer than the requested four peaks the found
peaks themselves are returned — in particular a silent waveform of length
at least two yields the empty list.  The operation never raises. -/
theorem c2_amended (n : ℕ) (hn : 2 ≤ n) :
    estimateFormants (List.replicate n 0) 22050 4 = []
    ∧ estimateFormants [] 22050 4 = [500, 1500, 2500, 3500] := by
  refine ⟨estimateFormants_silent n hn 22050, ?_⟩
  simp only [estimateFormants]
  split
  · rfl
  · next hne =>
    exfalso
    apply hne
    simp [dftPower]

theorem c2_amended_witness :
    estimateFormants (List.replicate 4 0) 22050 4 = []
    ∧ estimateFormants [] 22050 4 = [500, 1500, 2500, 3500] :=
  c2_amended 4 (by norm_num)

/-- C6: clone_voice with text that is empty after stripping whitespace
fails immediately with the input-validation error path: the result is
None, the engine state is untouched, and no extraction happens and no
temporary file is created (the event log is empty). -/
theorem c6_empty_text (st : EngineState) (ext : Collab) (text refPath : String)
    (h : pyStrip text = "") : cloneVoice st ext text refPath = (st, [], none) := by
  unfold cloneVoice
  rw [if_pos h]

theorem c6_empty_text_witness :
    cloneVoice stEmpty extFail "  " "ref.wav" = (stEmpty, [], none) :=
  c6_empty_text stEmpty extFail "  " "ref.wav" (by decide)

/-- C10: when feature extraction fails, load_reference_voice returns false
and leaves every cached field (reference features, waveform, sample rate
and the last-loaded path) exactly as it was — the failed load is atomic. -/
theorem c10_failed_load_atomic (st : EngineState) (ext : Collab) (path : String)
    (h : ext.extract path = none) :
    loadReferenceVoice st ext path = (st, [Ev.extracted path], false) := by
  unfold loadReferenceVoice
  rw [h]

theorem c10_failed_load_atomic_witness :
    loadReferenceVoice stLoaded extFail "other.wav"
      = (stLoaded, [Ev.extracted "other.wav"], false) :=
  c10_failed_load_atomic stLoaded extFail "other.wav" rfl

/-- C9 (counterexample): load_reference_voice itself performs no cache
check: after a first successful load of "ref.wav" has populated the cache,
a second direct load with the same path still invokes the extractor. -/
theorem c9_counterexample :
    ((loadReferenceVoice stEmpty extOk "ref.wav").1.reference_features).isSome = true
    ∧ (loadReferenceVoice (loadReferenceVoice stEmpty extOk "ref.wav").1 extOk
        "ref.wav").2.1 = [Ev.extracted "ref.wav"] :=
  ⟨rfl, rfl⟩

theorem cloneAfterLoad_preserves (st : EngineState) (ext : Collab) :
    (cloneAfterLoad st ext []).1 = st
    ∧ ((cloneAfterLoad st ext []).2.1.all (fun e => !e.isExtract)) = true := by
  unfold cloneAfterLoad synthesizeBaseSpeech
  cases ext.ttsOk <;> cases ext.synthOk <;> cases ext.transformOk <;>
    cases ext.writeOk <;> cases ext.unlinkOk <;> simp [Ev.isExtract]

/-- C9 (amended): the cache lives in clone_voice, not load_reference_voice:
when features are cached and the cached path equals the requested one,
clone_voice never invokes the extractor again and leaves the cached
reference state unchanged; a direct load_reference_voice call, however,
always re-extracts (see the counterexample). -/
theorem c9_amended (st : EngineState) (ext : Collab) (text refPath : String)
    (hf : st.reference_features.isSome = true)
    (hp : st.last_reference_path = some refPath) :
    (cloneVoice st ext text refPath).1 = st
    ∧ ((cloneVoice st ext text refPath).2.1.all (fun e => !e.isExtract)) = true := by
  unfold cloneVoice
  by_cases ht : pyStrip text = ""
  · rw [if_pos ht]
    exact ⟨rfl, rfl⟩
  · rw [if_neg ht]
    obtain ⟨f, hf2⟩ := Option.isSome_iff_exists.mp hf
    rw [hf2, hp]
    simp only [Option.isNone_some, bne_self_eq_false, Bool.or_self, Bool.false_eq_true,
      if_false]
    exact cloneAfterLoad_preserves st ext

theorem c9_amended_witness :
    (cloneVoice stLoaded extOk "hi" "ref.wav").1 = stLoaded
    ∧ ((cloneVoice stLoaded extOk "hi" "ref.wav").2.1.all (fun e => !e.isExtract)) = true :=
  c9_amended stLoaded extOk "hi" "ref.wav" rfl rfl

/-- C7 (counterexample): with the reference cached, synthesis succeeding
and sf.write raising, clone_voice returns None, never deletes the
base-synthesis temp file, and leaves a created-but-unwritten output temp
file behind — the cleanup is not on this exit path. -/
theorem c7_counterexample :
    (cloneVoice stLoaded extWriteFail "hello" "ref.wav").2.1
      = [Ev.created "base.wav", Ev.created "out.wav"]
    ∧ (cloneVoice stLoaded extWriteFail "hello" "ref.wav").2.2 = none
    ∧ Ev.deleted "base.wav" ∉ (cloneVoice stLoaded extWriteFail "hello" "ref.wav").2.1 := by
  have h : (cloneVoice stLoaded extWriteFail "hello" "ref.wav").2.1
      = [Ev.created "base.wav", Ev.created "out.wav"] := rfl
  refine ⟨h, rfl, ?_⟩
  rw [h]
  decide

/-- C7 (amended): the base-synthesis artifact is deleted (best effort)
only on the success path, after a successful output write; on failure
paths after synthesis produced the file — the transformation raising, or
sf.write failing — no cleanup runs, the base artifact remains, and a
failed write additionally leaves a created output temp file behind. -/
theorem c7_amended (st : EngineState) (ext : Collab) (text refPath : String) (f : Features)
    (ht : pyStrip text ≠ "")
    (hf : st.reference_features = some f)
    (hp : st.last_reference_path = some refPath)
    (h1 : ext.ttsOk = true) (h2 : ext.synthOk = true) (h3 : ext.transformOk = true)
    (h4 : ext.writeOk = true) (h5 : ext.unlinkOk = true) :
    cloneVoice st ext text refPath
      = (st, [Ev.created ext.baseName, Ev.created ext.outName, Ev.deleted ext.baseName],
          some ext.outName) := by
  unfold cloneVoice
  rw [if_neg ht, hf, hp]
  simp only [Option.isNone_some, bne_self_eq_false, Bool.or_self, Bool.false_eq_true,
    if_false]
  unfold cloneAfterLoad synthesizeBaseSpeech
  rw [h1, h2, h3, h4, h5]
  simp

theorem c7_amended_witness :
    cloneVoice stLoaded extOk "hello" "ref.wav"
      = (stLoaded, [Ev.created "base.wav", Ev.created "out.wav", Ev.deleted "base.wav"],
          some "out.wav") :=
  c7_amended stLoaded extOk "hello" "ref.wav" fZero (by decide) rfl rfl rfl rfl rfl rfl rfl

theorem closeness_comm (a b : NVal) : closeness a b = closeness b a := by
  unfold closeness
  cases a with
  | none => cases b <;> rfl
  | some x =>
    cases b with
    | none => rfl
    | some y =>
      simp only [nsub, nabs, pyMax, ndiv]
      rw [abs_sub_comm, max_comm]

theorem closeness_self (a : NVal) : closeness a a = none ∨ closeness a a = some 1 := by
  cases a with
  | none => exact Or.inl rfl
  | some x =>
    by_cases hx : x = 0
    · subst hx
      left
      simp [closeness, nsub, nabs, pyMax, ndiv]
    · right
      simp [closeness, nsub, nabs, pyMax, ndiv, hx]

theorem pyMinOne_le_one (v : NVal) : pyMinOne v ≤ 1 := by
  cases v with
  | none => exact le_refl 1
  | some y =>
    show (if y < 1 then y else 1) ≤ 1
    by_cases h : y < 1
    · rw [if_pos h]
      exact le_of_lt h
    · rw [if_neg h]

theorem simScore_comm (a b : Features) : simScore a b = simScore b a := by
  unfold simScore
  rw [closeness_comm a.f0_mean b.f0_mean,
    closeness_comm (some a.spectral_centroid_mean) (some b.spectral_centroid_mean)]

theorem simScore_nonneg (a b : Features) : 0 ≤ simScore a b := by
  unfold simScore
  exact le_max_left 0 _

theorem simScore_le_one (a b : Features) : simScore a b ≤ 1 := by
  unfold simScore
  exact max_le (by norm_num) (pyMinOne_le_one _)

theorem simScore_self (f : Features) : simScore f f = 1 := by
  have hmax : max (0 : ℝ) 1 = 1 := max_eq_right zero_le_one
  unfold simScore
  rcases closeness_self f.f0_mean with h | h <;>
    rcases closeness_self (some f.spectral_centroid_mean) with h2 | h2
  · rw [h, h2]; exact hmax
  · rw [h, h2]; exact hmax
  · rw [h, h2]; exact hmax
  · rw [h, h2]
    have ha : nadd (some 1) (some 1) = some 2 := by
      simp only [nadd]
      norm_num
    have hd : ndiv (some (2 : ℝ)) (some 2) = some 1 := by
      simp only [ndiv]
      rw [if_neg (by norm_num : ¬ (2 : ℝ) = 0)]
      norm_num
    show max (0 : ℝ) (pyMinOne (ndiv (nadd (some 1) (some 1)) (some 2))) = 1
    rw [ha, hd]
    rw [show pyMinOne (some (1 : ℝ)) = 1 from by simp [pyMinOne]]
    exact hmax

/-- C8: the similarity score is symmetric, lies in [0, 1], equals 1.0 when
the same path (hence the same extracted features) is compared with itself,
and is exactly 0.0 when extraction of either input fails. -/
theorem c8_similarity_properties (ext : Collab) (A B C D : String)
    (fa : Features × List ℝ)
    (hA : ext.extract A = some fa) (hC : ext.extract C = none) :
    getVoiceSimilarityScore ext A B = getVoiceSimilarityScore ext B A
    ∧ 0 ≤ getVoiceSimilarityScore ext A B
    ∧ getVoiceSimilarityScore ext A B ≤ 1
    ∧ getVoiceSimilarityScore ext A A = 1
    ∧ getVoiceSimilarityScore ext C D = 0
    ∧ getVoiceSimilarityScore ext D C = 0 := by
  refine ⟨?_, ?_, ?_, ?_, ?_, ?_⟩
  · unfold getVoiceSimilarityScore
    cases hB : ext.extract B with
    | none => rw [hA]
    | some fb =>
      rw [hA]
      exact simScore_comm fb.1 fa.1
  · unfold getVoiceSimilarityScore
    cases hB : ext.extract B with
    | none => rw [hA]
    | some fb =>
      rw [hA]
      exact simScore_nonneg fb.1 fa.1
  · unfold getVoiceSimilarityScore
    cases hB : ext.extract B with
    | none =>
      rw [hA]
      norm_num
    | some fb =>
      rw [hA]
      exact simScore_le_one fb.1 fa.1
  · unfold getVoiceSimilarityScore
    rw [hA]
    exact simScore_self fa.1
  · unfold getVoiceSimilarityScore
    cases hD : ext.extract D with
    | none => rw [hC]
    | some fd => rw [hC]
  · unfold getVoiceSimilarityScore
    rw [hC]

theorem c8_similarity_properties_witness :
    getVoiceSimilarityScore extSim "a" "a" = 1
    ∧ getVoiceSimilarityScore extSim "c" "b" = 0 := by
  have h := c8_similarity_properties extSim "a" "b" "c" "b" (fZero, [])
    (by simp [extSim]) (by simp [extSim])
  exact ⟨h.2.2.2.1, h.2.2.2.2.1⟩
